import Mathlib

/-!
Verification development for the help renderer of this repository
(`src/output/help.rs` and `clap_builder/src/builder/styling.rs`).

Strings are embedded as lists of bytes (`List Nat`); all inputs exercised
here are ASCII, for which the UTF-8 bytes coincide with the character
codes and the unicode display width of a string equals its length.
-/

set_option maxRecDepth 10000

namespace Clap

/-- ASCII string to byte list; all strings used in this development are ASCII,
so the character codes are exactly the UTF-8 bytes. -/
def strB (s : String) : List Nat := s.data.map Char.toNat

/-- Embeds `str_width` (`unicode_width::UnicodeWidthStr::width`): every byte
list handled here is ASCII, where each character has display width 1. -/
def str_width (s : List Nat) : Nat := s.length

/-- Outcome of one `copy_until` run: the bytes copied to the writer, the bytes
left unconsumed in the reader, and whether the delimiter was consumed. -/
structure CopyOut where
  written : List Nat
  remaining : List Nat
  found : Bool
deriving Repr, DecidableEq

/-- Embeds `copy_until` (help.rs line 894): copy reader bytes to the writer until
`delim` is found; the delimiter itself is consumed but not written. -/
def copyUntilCore (delim : Nat) : List Nat → CopyOut
  | [] => ⟨[], [], false⟩
  | b :: rest =>
    if b = delim then ⟨[], rest, true⟩
    else
      let p := copyUntilCore delim rest
      ⟨b :: p.written, p.remaining, p.found⟩

/-- Embeds `copy_until` running on `r.take(limit)` (help.rs lines 951-952): at most
`limit` bytes can be pulled from the reader; bytes beyond the limit stay in the
reader (`remaining`). -/
def copyUntilLCore (delim : Nat) : Nat → List Nat → CopyOut
  | _, [] => ⟨[], [], false⟩
  | 0, input => ⟨[], input, false⟩
  | Nat.succ n, b :: rest =>
    if b = delim then ⟨[], rest, true⟩
    else
      let p := copyUntilLCore delim n rest
      ⟨b :: p.written, p.remaining, p.found⟩

/-- The fixed tag-buffer size: `Cursor::new(vec![0u8; 15])` in
`write_templated_help` (help.rs line 1003). -/
def tagBufSize : Nat := 15

/-- Outcome of one `copy_and_capture` call as observed by the caller:
bytes written, bytes remaining in the reader, and `tag`:
`none` embeds Rust `None` (the loop terminates);
`some t` embeds `Some(Ok(len))` where `t` is the slice `tag_buffer[0..len]`
the dispatcher would see — in the recovery path the code reports length 0,
so the caller observes `some []` there. -/
structure CaptureOut where
  written : List Nat
  remaining : List Nat
  tag : Option (List Nat)
deriving Repr, DecidableEq

/-- Embeds `copy_and_capture` (help.rs lines 925-976). `123`/`125` are the bytes
of the opening/closing braces. -/
def copy_and_capture (input : List Nat) : CaptureOut :=
  let p := copyUntilCore 123 input
  if p.found then
    let q := copyUntilLCore 125 tagBufSize p.remaining
    if q.found then
      -- DelimiterFound(tag_length): yield the captured tag.
      ⟨p.written, q.remaining, some q.written⟩
    else if 0 < q.written.length then
      -- DelimiterNotFound: write `{` and the captured bytes, report Ok(0).
      ⟨p.written ++ 123 :: q.written, q.remaining, some []⟩
    else
      -- ReaderEmpty: the reader ended right after the brace; return None.
      ⟨p.written, q.remaining, none⟩
  else
    -- ReaderEmpty | DelimiterNotFound on the outer search: return None.
    ⟨p.written, p.remaining, none⟩

/-- The data `write_templated_help` draws tag content from: the `parser.app`
fields it reads (optional, with the literal fallback strings of lines
1027-1101) and, for the generated blocks (`write_bin_name`, usage and the
argument/subcommand sections), the bytes those calls produce. -/
structure TemplateCtx where
  binName : List Nat := []
  version : Option (List Nat) := none
  author : Option (List Nat) := none
  about : Option (List Nat) := none
  longAbout : Option (List Nat) := none
  usage : List Nat := []
  allArgs : List Nat := []
  unified : List Nat := []
  flags : List Nat := []
  options : List Nat := []
  positionals : List Nat := []
  subcommands : List Nat := []
  moreHelp : Option (List Nat) := none
  preHelp : Option (List Nat) := none
deriving Repr, DecidableEq

/-- Embeds the tag-dispatch `match` of `write_templated_help`
(help.rs lines 1027-1108): each recognized tag writes its block, an
unrecognized tag is written back surrounded by braces. -/
def dispatchTag (ctx : TemplateCtx) (tag : List Nat) : List Nat :=
  if tag = strB "?" then strB "Could not decode tag name"
  else if tag = strB "bin" then ctx.binName
  else if tag = strB "version" then ctx.version.getD (strB "unknown version")
  else if tag = strB "author" then ctx.author.getD (strB "unknown author")
  else if tag = strB "about" then ctx.about.getD (strB "unknown about")
  else if tag = strB "long-about" then ctx.longAbout.getD (strB "unknown about")
  else if tag = strB "usage" then ctx.usage
  else if tag = strB "all-args" then ctx.allArgs
  else if tag = strB "unified" then ctx.unified
  else if tag = strB "flags" then ctx.flags
  else if tag = strB "options" then ctx.options
  else if tag = strB "positionals" then ctx.positionals
  else if tag = strB "subcommands" then ctx.subcommands
  else if tag = strB "after-help" then ctx.moreHelp.getD (strB "unknown after-help")
  else if tag = strB "before-help" then ctx.preHelp.getD (strB "unknown before-help")
  else 123 :: tag ++ [125]

/-- The loop of `write_templated_help` (help.rs lines 1011-1109), with an explicit
fuel argument for the recursion; every continuing iteration consumes at least one
input byte, so any fuel above the template length is never exhausted (see
`templatedHelpF_congr`). `Some(Ok(val)) if val > 0` dispatches the tag; any other
`Some(Ok(_))` continues the loop; `None` ends the render. -/
def templatedHelpF (ctx : TemplateCtx) : Nat → List Nat → List Nat
  | 0, _ => []
  | Nat.succ fuel, input =>
    let c := copy_and_capture input
    match c.tag with
    | none => c.written
    | some t =>
      if 0 < t.length then
        c.written ++ dispatchTag ctx t ++ templatedHelpF ctx fuel c.remaining
      else
        c.written ++ templatedHelpF ctx fuel c.remaining

/-- Embeds `write_templated_help` (help.rs lines 1000-1110): the returned list is
the byte sequence the function writes to the wrapped stream. -/
def write_templated_help (ctx : TemplateCtx) (template : List Nat) : List Nat :=
  templatedHelpF ctx (template.length + 1) template

/-! Scanner bookkeeping lemmas. -/

theorem copyUntilCore_len (delim : Nat) (l : List Nat) :
    (copyUntilCore delim l).written.length + (copyUntilCore delim l).remaining.length
      + (if (copyUntilCore delim l).found then 1 else 0) = l.length := by
  induction l with
  | nil => simp [copyUntilCore]
  | cons b rest ih =>
    by_cases hb : b = delim
    · simp [copyUntilCore, hb]
    · simp only [copyUntilCore, if_neg hb, List.length_cons]
      omega

theorem copyUntilLCore_len (delim : Nat) (lim : Nat) (l : List Nat) :
    (copyUntilLCore delim lim l).written.length + (copyUntilLCore delim lim l).remaining.length
      + (if (copyUntilLCore delim lim l).found then 1 else 0) = l.length := by
  induction l generalizing lim with
  | nil => cases lim <;> simp [copyUntilLCore]
  | cons b rest ih =>
    cases lim with
    | zero => simp [copyUntilLCore]
    | succ n =>
      by_cases hb : b = delim
      · simp [copyUntilLCore, hb]
      · simp only [copyUntilLCore, if_neg hb, List.length_cons]
        have := ih n
        omega

theorem copyUntilCore_no_delim (delim : Nat) (s : List Nat) (hs : delim ∉ s) :
    copyUntilCore delim s = ⟨s, [], false⟩ := by
  induction s with
  | nil => rfl
  | cons b rest ih =>
    have hb : b ≠ delim := fun h => hs (h ▸ List.mem_cons_self b rest)
    have hrest : delim ∉ rest := fun h => hs (List.mem_cons_of_mem b h)
    simp [copyUntilCore, hb, ih hrest]

theorem copyUntilCore_finds (delim : Nat) (s x : List Nat) (hs : delim ∉ s) :
    copyUntilCore delim (s ++ delim :: x) = ⟨s, x, true⟩ := by
  induction s with
  | nil => simp [copyUntilCore]
  | cons b rest ih =>
    have hb : b ≠ delim := fun h => hs (h ▸ List.mem_cons_self b rest)
    have hrest : delim ∉ rest := fun h => hs (List.mem_cons_of_mem b h)
    simp [copyUntilCore, hb, ih hrest]

theorem copyUntilLCore_finds (delim : Nat) (t r : List Nat) (lim : Nat)
    (ht : delim ∉ t) (hlen : t.length < lim) :
    copyUntilLCore delim lim (t ++ delim :: r) = ⟨t, r, true⟩ := by
  induction t generalizing lim with
  | nil =>
    cases lim with
    | zero => omega
    | succ n => simp [copyUntilLCore]
  | cons b rest ih =>
    cases lim with
    | zero => omega
    | succ n =>
      have hb : b ≠ delim := fun h => ht (h ▸ List.mem_cons_self b rest)
      have hrest : delim ∉ rest := fun h => ht (List.mem_cons_of_mem b h)
      have hlen' : rest.length < n := by simpa using Nat.lt_of_succ_lt_succ hlen
      simp [copyUntilLCore, hb, ih n hrest hlen']

theorem copyUntilLCore_exhausts (delim : Nat) (t r : List Nat) (lim : Nat)
    (ht : delim ∉ t) (hlen : t.length = lim) :
    copyUntilLCore delim lim (t ++ r) = ⟨t, r, false⟩ := by
  induction t generalizing lim with
  | nil =>
    subst hlen
    cases r <;> simp [copyUntilLCore]
  | cons b rest ih =>
    cases lim with
    | zero => simp at hlen
    | succ n =>
      have hb : b ≠ delim := fun h => ht (h ▸ List.mem_cons_self b rest)
      have hrest : delim ∉ rest := fun h => ht (List.mem_cons_of_mem b h)
      have hlen' : rest.length = n := by simpa using hlen
      simp [copyUntilLCore, hb, ih n hrest hlen']

/-! Shapes of `copy_and_capture` on the input forms the claims exercise. -/

theorem copy_and_capture_no_brace (s : List Nat) (hs : 123 ∉ s) :
    copy_and_capture s = ⟨s, [], none⟩ := by
  simp [copy_and_capture, copyUntilCore_no_delim 123 s hs]

theorem copy_and_capture_lone_brace (s : List Nat) (hs : 123 ∉ s) :
    copy_and_capture (s ++ [123]) = ⟨s, [], none⟩ := by
  have h1 : copyUntilCore 123 (s ++ 123 :: []) = ⟨s, [], true⟩ := copyUntilCore_finds 123 s [] hs
  simp [copy_and_capture, h1, copyUntilLCore]

theorem copy_and_capture_tag (s t r : List Nat) (hs : 123 ∉ s) (ht : 125 ∉ t)
    (hlen : t.length < tagBufSize) :
    copy_and_capture (s ++ 123 :: (t ++ 125 :: r)) = ⟨s, r, some t⟩ := by
  have h1 := copyUntilCore_finds 123 s (t ++ 125 :: r) hs
  have h2 := copyUntilLCore_finds 125 t r tagBufSize ht hlen
  simp [copy_and_capture, h1, h2]

theorem copy_and_capture_overflow (s t r : List Nat) (hs : 123 ∉ s) (ht : 125 ∉ t)
    (hlen : t.length = tagBufSize) :
    copy_and_capture (s ++ 123 :: (t ++ r)) = ⟨s ++ 123 :: t, r, some []⟩ := by
  have h1 := copyUntilCore_finds 123 s (t ++ r) hs
  have h2 := copyUntilLCore_exhausts 125 t r tagBufSize ht hlen
  have hpos : 0 < t.length := by rw [hlen]; decide
  simp [copy_and_capture, h1, h2, hpos]

/-- Every `copy_and_capture` call that makes the template loop continue consumes
at least one byte of the template. -/
theorem copy_and_capture_remaining_lt (input : List Nat) (t : List Nat)
    (h : (copy_and_capture input).tag = some t) :
    (copy_and_capture input).remaining.length < input.length := by
  have hp := copyUntilCore_len 123 input
  have hq := copyUntilLCore_len 125 tagBufSize (copyUntilCore 123 input).remaining
  simp only [copy_and_capture] at h ⊢
  by_cases hf : (copyUntilCore 123 input).found
  · rw [if_pos hf] at h ⊢
    rw [if_pos hf] at hp
    by_cases hqf : (copyUntilLCore 125 tagBufSize (copyUntilCore 123 input).remaining).found
    · rw [if_pos hqf] at h ⊢
      rw [if_pos hqf] at hq
      simp only [CaptureOut.mk.injEq] at *
      omega
    · rw [if_neg hqf] at h ⊢
      rw [if_neg hqf] at hq
      by_cases hw :
          0 < (copyUntilLCore 125 tagBufSize (copyUntilCore 123 input).remaining).written.length
      · rw [if_pos hw] at h ⊢
        show (copyUntilLCore 125 tagBufSize
          (copyUntilCore 123 input).remaining).remaining.length < input.length
        omega
      · rw [if_neg hw] at h
        simp at h
  · rw [if_neg hf] at h
    simp at h

/-- Any fuel strictly above the input length computes the same render. -/
theorem templatedHelpF_congr (ctx : TemplateCtx) :
    ∀ (fuel₁ : Nat) (fuel₂ : Nat) (input : List Nat), input.length < fuel₁ →
      input.length < fuel₂ → templatedHelpF ctx fuel₁ input = templatedHelpF ctx fuel₂ input := by
  intro fuel₁
  induction fuel₁ with
  | zero => intro fuel₂ input h1 _; omega
  | succ f ih =>
    intro fuel₂ input h1 h2
    cases fuel₂ with
    | zero => omega
    | succ g =>
      simp only [templatedHelpF]
      cases htag : (copy_and_capture input).tag with
      | none => rfl
      | some t =>
        have hlt := copy_and_capture_remaining_lt input t htag
        have hrec := ih g (copy_and_capture input).remaining (by omega) (by omega)
        simp [htag, hrec]

theorem templatedHelpF_eq_write (ctx : TemplateCtx) (fuel : Nat) (input : List Nat)
    (h : input.length < fuel) :
    templatedHelpF ctx fuel input = write_templated_help ctx input :=
  templatedHelpF_congr ctx fuel (input.length + 1) input h (Nat.lt_succ_self _)

/-! Step equations for `write_templated_help` on the input shapes the claims use. -/

theorem write_templated_help_no_brace (ctx : TemplateCtx) (s : List Nat) (hs : 123 ∉ s) :
    write_templated_help ctx s = s := by
  simp [write_templated_help, templatedHelpF, copy_and_capture_no_brace s hs]

theorem write_templated_help_lone_brace (ctx : TemplateCtx) (s : List Nat) (hs : 123 ∉ s) :
    write_templated_help ctx (s ++ [123]) = s := by
  simp [write_templated_help, templatedHelpF, copy_and_capture_lone_brace s hs]

theorem write_templated_help_tag_step (ctx : TemplateCtx) (s t r : List Nat)
    (hs : 123 ∉ s) (ht : 125 ∉ t) (hlen : t.length < tagBufSize) :
    write_templated_help ctx (s ++ 123 :: (t ++ 125 :: r)) =
      s ++ (if 0 < t.length then dispatchTag ctx t else []) ++ write_templated_help ctx r := by
  have hcac := copy_and_capture_tag s t r hs ht hlen
  have hr : r.length < (s ++ 123 :: (t ++ 125 :: r)).length := by
    simp [List.length_append]
    omega
  rw [write_templated_help]
  simp only [templatedHelpF, hcac]
  rw [templatedHelpF_eq_write ctx _ r (by simpa using hr)]
  by_cases hpos : 0 < t.length <;> simp [hpos]

theorem write_templated_help_overflow_step (ctx : TemplateCtx) (s t r : List Nat)
    (hs : 123 ∉ s) (ht : 125 ∉ t) (hlen : t.length = tagBufSize) :
    write_templated_help ctx (s ++ 123 :: (t ++ r)) =
      s ++ 123 :: (t ++ write_templated_help ctx r) := by
  have hcac := copy_and_capture_overflow s t r hs ht hlen
  have hr : r.length < (s ++ 123 :: (t ++ r)).length := by
    simp [List.length_append]
    omega
  rw [write_templated_help]
  simp only [templatedHelpF, hcac]
  rw [templatedHelpF_eq_write ctx _ r (by simpa using hr)]
  simp

/-! Abstract templates: a template split into literal runs and `\x7btag\x7d` regions. -/

/-- A template segment: a run of literal bytes or one brace-delimited tag. -/
inductive TplSeg where
  | lit (s : List Nat)
  | tag (t : List Nat)
deriving Repr, DecidableEq

/-- The concrete bytes of a segment inside the template string. -/
def TplSeg.render : TplSeg → List Nat
  | .lit s => s
  | .tag t => 123 :: t ++ [125]

/-- What the renderer writes for a segment: literal bytes verbatim, a tag via
the dispatcher (which echoes unknown tags back, braces included). -/
def TplSeg.expand (ctx : TemplateCtx) : TplSeg → List Nat
  | .lit s => s
  | .tag t => dispatchTag ctx t

/-- Well-formed segments: literal runs hold no opening brace, tags are nonempty,
hold no closing brace and fit the 15-byte tag buffer together with their
closing brace. Every tag the source recognizes satisfies this. -/
def TplSeg.wf : TplSeg → Prop
  | .lit s => 123 ∉ s
  | .tag t => t ≠ [] ∧ t.length < tagBufSize ∧ 125 ∉ t

instance (seg : TplSeg) : Decidable seg.wf := by
  cases seg with
  | lit s => exact inferInstanceAs (Decidable (123 ∉ s))
  | tag t => exact inferInstanceAs (Decidable (_ ∧ _ ∧ _))

/-- The template string denoted by a segment list. -/
def renderTpl (segs : List TplSeg) : List Nat := (segs.map TplSeg.render).flatten

/-- The output the spec predicts for a segment list. -/
def expandTpl (ctx : TemplateCtx) (segs : List TplSeg) : List Nat :=
  (segs.map (TplSeg.expand ctx)).flatten

theorem write_templated_help_segs (ctx : TemplateCtx) :
    ∀ (segs : List TplSeg), (∀ seg ∈ segs, seg.wf) → ∀ (pre : List Nat), 123 ∉ pre →
      write_templated_help ctx (pre ++ renderTpl segs) = pre ++ expandTpl ctx segs := by
  intro segs
  induction segs with
  | nil =>
    intro _ pre hpre
    simpa [renderTpl, expandTpl] using write_templated_help_no_brace ctx pre hpre
  | cons seg rest ih =>
    intro hwf pre hpre
    have hseg : seg.wf := hwf seg (List.mem_cons_self _ _)
    have hrest : ∀ s ∈ rest, TplSeg.wf s := fun s hs => hwf s (List.mem_cons_of_mem _ hs)
    cases seg with
    | lit s =>
      have hs : 123 ∉ s := hseg
      have hps : 123 ∉ pre ++ s := by
        intro hmem
        rcases List.mem_append.mp hmem with hmem | hmem
        · exact hpre hmem
        · exact hs hmem
      have := ih hrest (pre ++ s) hps
      simpa [renderTpl, expandTpl, TplSeg.render, TplSeg.expand, List.append_assoc] using this
    | tag t =>
      obtain ⟨hne, hlen, hnr⟩ := hseg
      have hshape : pre ++ renderTpl (TplSeg.tag t :: rest) =
          pre ++ 123 :: (t ++ 125 :: renderTpl rest) := by
        simp [renderTpl, TplSeg.render, List.append_assoc]
      rw [hshape, write_templated_help_tag_step ctx pre t (renderTpl rest) hpre hnr hlen]
      have hpos : 0 < t.length := List.length_pos.mpr hne
      have hih := ih hrest [] (by simp)
      simp only [List.nil_append] at hih
      rw [if_pos hpos, hih]
      simp [expandTpl, TplSeg.expand]

/-! Claim theorems for the template scanner. -/

/-- Concrete render context used to instantiate counterexamples and witnesses. -/
def ctxW : TemplateCtx :=
  { binName := strB "myapp"
    version := some (strB "1.0")
    author := some (strB "Ann")
    about := some (strB "does things")
    usage := strB "myapp [FLAGS]"
    allArgs := strB "ARGS-BLOCK"
    moreHelp := some (strB "after")
    preHelp := some (strB "before") }

/-- C1 counterexample: on the template `a\x7b` (a lone opening brace as the last
byte) the renderer writes only `a`; the brace is dropped, not echoed, so the
output is not `a\x7b` as the claim requires. -/
theorem c1_lone_brace_counterexample :
    write_templated_help ctxW (strB "a" ++ [123]) = strB "a" ∧
      123 ∉ write_templated_help ctxW (strB "a" ++ [123]) := by
  constructor <;> decide

/-- C1 amended: for every template that ends with an opening brace as its last
byte (and no earlier opening brace), the scanner terminates successfully having
written the preceding scanned text, and the lone unmatched brace is silently
dropped from the output. -/
theorem c1_lone_brace_dropped (ctx : TemplateCtx) (s : List Nat) (hs : 123 ∉ s) :
    write_templated_help ctx (s ++ [123]) = s :=
  write_templated_help_lone_brace ctx s hs

/-- C1 witness: the amended statement evaluated on the template `ab\x7b`. -/
theorem c1_lone_brace_dropped_witness :
    write_templated_help ctxW (strB "ab" ++ [123]) = strB "ab" :=
  c1_lone_brace_dropped ctxW (strB "ab") (by decide)

/-- C5: template expansion is a round trip on non-tag text. For every template
made of literal runs (no stray opening brace) and brace-delimited tags (nonempty,
within the buffer bound), every literal byte is reproduced verbatim and every tag
is replaced by its dispatched content — where the dispatch of an unrecognized tag
such as `frobnicate` is, by `dispatchTag`, exactly the tag echoed back with its
braces, as the second conjunct shows on the template `\x7bfrobnicate\x7d`. -/
theorem c5_template_roundtrip (ctx : TemplateCtx) (segs : List TplSeg)
    (hwf : ∀ seg ∈ segs, seg.wf) :
    write_templated_help ctx (renderTpl segs) = expandTpl ctx segs ∧
      write_templated_help ctx (123 :: strB "frobnicate" ++ [125]) =
        123 :: strB "frobnicate" ++ [125] := by
  constructor
  · simpa using write_templated_help_segs ctx segs hwf [] (by simp)
  · have hd : dispatchTag ctx (strB "frobnicate") = 123 :: strB "frobnicate" ++ [125] := by
      unfold dispatchTag
      repeat rw [if_neg (by decide)]
    have h := write_templated_help_tag_step ctx [] (strB "frobnicate") [] (by simp)
      (by decide) (by decide)
    rw [write_templated_help_no_brace ctx [] (by simp),
      if_pos (by decide : 0 < (strB "frobnicate").length), hd] at h
    simp only [List.nil_append, List.append_nil] at h
    simpa [List.cons_append] using h

/-- C5 witness: the round trip evaluated on the template
`Hello \x7bbin\x7d v\x7bversion\x7d! \x7bfrobnicate\x7d` against the concrete context `ctxW`. -/
theorem c5_template_roundtrip_witness :
    write_templated_help ctxW (renderTpl
        [TplSeg.lit (strB "Hello "), TplSeg.tag (strB "bin"), TplSeg.lit (strB " v"),
          TplSeg.tag (strB "version"), TplSeg.lit (strB "! "),
          TplSeg.tag (strB "frobnicate")]) =
      expandTpl ctxW
        [TplSeg.lit (strB "Hello "), TplSeg.tag (strB "bin"), TplSeg.lit (strB " v"),
          TplSeg.tag (strB "version"), TplSeg.lit (strB "! "),
          TplSeg.tag (strB "frobnicate")] :=
  (c5_template_roundtrip ctxW _ (by decide)).1

/-- C6: when an opening brace is followed by at least 15 (the tag-buffer bound)
bytes none of which is a closing brace, the scanner writes the opening brace and
the 15 bound-limited captured bytes back as literal text — no data loss, no
error — and resumes normal scanning on the remaining bytes. -/
theorem c6_oversized_tag_recovery (ctx : TemplateCtx) (s t r : List Nat)
    (hs : 123 ∉ s) (ht : 125 ∉ t) (hlen : t.length = tagBufSize) :
    write_templated_help ctx (s ++ 123 :: (t ++ r)) =
      s ++ 123 :: (t ++ write_templated_help ctx r) :=
  write_templated_help_overflow_step ctx s t r hs ht hlen

/-- C6 witness: a brace followed by 100 non-closing-brace bytes; the first 15
captured bytes come back as literal text and the remaining 85 bytes are scanned
normally (here they contain no brace, so they stream through verbatim). -/
theorem c6_oversized_tag_recovery_witness :
    write_templated_help ctxW (strB "x" ++ 123 :: (List.replicate 15 97 ++ List.replicate 85 98)) =
      strB "x" ++ 123 :: (List.replicate 15 97 ++ List.replicate 85 98) := by
  have h := c6_oversized_tag_recovery ctxW (strB "x") (List.replicate 15 97)
    (List.replicate 85 98) (by decide) (by decide) (by decide)
  rw [h, write_templated_help_no_brace ctxW (List.replicate 85 98) (by decide)]

/-- C9: an empty tag — an opening brace immediately followed by a closing
brace — is removed from the output entirely: the scanner reports a zero-length
capture to the dispatcher, which writes nothing for it, and scanning resumes on
the remaining bytes. -/
theorem c9_empty_tag_removed (ctx : TemplateCtx) (s r : List Nat) (hs : 123 ∉ s) :
    write_templated_help ctx (s ++ 123 :: 125 :: r) = s ++ write_templated_help ctx r ∧
      (copy_and_capture (s ++ 123 :: 125 :: r)).tag = some [] := by
  constructor
  · have h := write_templated_help_tag_step ctx s [] r hs (by simp) (by decide)
    simpa using h
  · have h := copy_and_capture_tag s [] r hs (by simp) (by decide)
    simp only [List.nil_append] at h
    rw [h]

/-- C9 witness: the template `x\x7b\x7dy` renders as `xy`. -/
theorem c9_empty_tag_removed_witness :
    write_templated_help ctxW (strB "x" ++ 123 :: 125 :: strB "y") =
      strB "x" ++ write_templated_help ctxW (strB "y") :=
  (c9_empty_tag_removed ctxW (strB "x") (strB "y") (by decide)).1

/-! Layout engine: the argument descriptor fields the help writer reads. -/

/-- The slice of the argument descriptor (`build::Arg`) that the help writer
reads. Text fields are byte lists; `env` is the variable name paired with its
optionally captured value; each alias is a name paired with its visibility.
`label` — Modelled from the spec: the bytes of `arg.to_string()`, the rendered
label such as `-x, --xyz <VAL>`; the `Display` impl lives in the argument data
model, outside the shown sources, so it is carried as a field here. -/
structure Arg where
  help : Option (List Nat) := none
  longHelp : Option (List Nat) := none
  hidden : Bool := false
  hiddenLongHelp : Bool := false
  hiddenShortHelp : Bool := false
  nextLineHelp : Bool := false
  label : List Nat := []
  env : Option (List Nat × Option (List Nat)) := none
  hideEnvValues : Bool := false
  defaultVal : Option (List Nat) := none
  hideDefaultValue : Bool := false
  aliases : Option (List (List Nat × Bool)) := none
  possibleVals : Option (List (List Nat)) := none
  hidePossibleValues : Bool := false
deriving Repr, DecidableEq

/-- Embeds `should_show_arg` (help.rs lines 1113-1125). -/
def should_show_arg (use_long : Bool) (arg : Arg) : Bool :=
  if arg.hidden then false
  else
    (!arg.hiddenLongHelp && use_long) || (!arg.hiddenShortHelp && !use_long) || arg.nextLineHelp

/-- Modelled from the spec: `Arg::longest_filter` is declared in the argument
data model, which is not among the shown sources; the spec states that an item
marked next-line-help is excluded from the width measurement, since it does not
participate in column alignment. -/
def longest_filter (arg : Arg) : Bool := !arg.nextLineHelp

/-- Embeds the measurement pass of `Help::write_args` (help.rs lines 203-220):
starting from the floor 2 — the shortest legal argument, `-x` — iterate the
arguments that pass `should_show_arg` and fold the rendered label width of those
passing `longest_filter` into the running maximum. -/
def write_args_longest (use_long : Bool) (args : List Arg) : Nat :=
  (args.filter (fun arg => should_show_arg use_long arg)).foldl
    (fun longest arg =>
      if longest_filter arg then max longest (str_width arg.label) else longest) 2

/-- Embeds `Help::spec_vals` (help.rs lines 479-552) in the colorless rendering
(`self.color = false`, so values print through `Format::None` and the plain
alias branch). Each present annotation is pushed with one leading space and the
vector is joined with a single space. -/
def spec_vals (hide_pv : Bool) (a : Arg) : List Nat :=
  let env_part : List (List Nat) :=
    match a.env with
    | some e =>
      let env_val := if !a.hideEnvValues then strB "=" ++ e.2.getD [] else []
      [strB " [env: " ++ e.1 ++ env_val ++ strB "]"]
    | none => []
  let default_part : List (List Nat) :=
    if !a.hideDefaultValue then
      match a.defaultVal with
      | some pv => [strB " [default: " ++ pv ++ strB "]"]
      | none => []
    else []
  let alias_part : List (List Nat) :=
    match a.aliases with
    | some aliases =>
      let als := List.intercalate (strB ", ") ((aliases.filter (fun al => al.2)).map (fun al => al.1))
      if als.isEmpty then [] else [strB " [aliases: " ++ als ++ strB "]"]
    | none => []
  let pv_part : List (List Nat) :=
    if !hide_pv && !a.hidePossibleValues then
      match a.possibleVals with
      | some pv => [strB " [possible values: " ++ List.intercalate (strB ", ") pv ++ strB "]"]
      | none => []
    else []
  List.intercalate (strB " ") (env_part ++ default_part ++ alias_part ++ pv_part)

/-- Embeds the comparison `(taken as f32 / self.term_w as f32) > 0.40` of
help.rs line 338 exactly over the rationals: `taken / term_w > 2/5` iff
`5 * taken > 2 * term_w`. At every input evaluated in this development the f32
computation agrees with the exact one; in particular at `taken = 32`,
`term_w = 80` the quotient 32/80 = 0.4 rounds to the same f32 as the literal
`0.40`, so the strict comparison is false in both models. -/
def ratio_exceeds_two_fifths (taken term_w : Nat) : Bool :=
  decide (5 * taken > 2 * term_w)

/-- Embeds the `force_next_line` computation of `Help::val`
(help.rs lines 331-339): `h` is `arg.help.unwrap_or("")`, the help width adds
the spec-values width, `nlh` ors the configuration flag with the item's own
next-line-help setting, and `taken` reserves `longest + 12` columns. -/
def val_force_next_line (next_line_help : Bool) (term_w longest : Nat) (a : Arg)
    (sv : List Nat) : Bool :=
  let h := a.help.getD []
  let h_w := str_width h + str_width sv
  let nlh := next_line_help || a.nextLineHelp
  let taken := longest + 12
  !nlh && decide (taken ≤ term_w) && ratio_exceeds_two_fifths taken term_w
    && decide (term_w - taken < h_w)

/-- Embeds the help-text selection of `Help::help` (help.rs lines 425-429):
long-help mode prefers `long_help` and falls back to `help`; short-help mode
prefers `help` and falls back to `long_help`; both absent yields the empty
string. -/
def help_text (use_long : Bool) (a : Arg) : List Nat :=
  if use_long then a.longHelp.getD (a.help.getD [])
  else a.help.getD (a.longHelp.getD [])

/-- The subcommand (`App`) fields `Help::sc_help` reads. -/
structure AppModel where
  about : Option (List Nat) := none
  longAbout : Option (List Nat) := none
deriving Repr, DecidableEq

/-- Embeds the about-text selection of `Help::sc_help` (help.rs lines 616-620),
the same fallback between `long_about` and `about`. -/
def sc_help_text (use_long : Bool) (app : AppModel) : List Nat :=
  if use_long then app.longAbout.getD (app.about.getD [])
  else app.about.getD (app.longAbout.getD [])

/-- The byte sequence of the two-character line-break marker the source spells
as a brace, `n`, and a closing brace. -/
def lb_seq : List Nat := [123, 110, 125]

/-- Embeds `str::replace` of the line-break marker by a newline (byte 10),
scanning left to right over non-overlapping occurrences. -/
def replace_lb : List Nat → List Nat
  | 123 :: 110 :: 125 :: rest => 10 :: replace_lb rest
  | b :: rest => b :: replace_lb rest
  | [] => []

/-- Embeds `str::contains` of the line-break marker. -/
def contains_lb : List Nat → Bool
  | 123 :: 110 :: 125 :: _ => true
  | _ :: rest => contains_lb rest
  | [] => false

/-- Embeds `Help::write_before_after_help` (help.rs lines 386-415) up to the
word-wrap primitive, which the spec treats as an external collaborator and is
therefore passed in as `wrap`: when the text is too long for the terminal or
holds a line-break marker, the marker is replaced by a newline and the result
is wrapped to the terminal width; otherwise the text passes through. -/
def write_before_after_help (wrap : List Nat → Nat → List Nat) (term_w : Nat)
    (h : List Nat) : List Nat :=
  if term_w ≤ str_width h || contains_lb h then wrap (replace_lb h) term_w else h

/-- Embeds the text processing of `Help::help` (help.rs lines 425-458), the part
that decides what byte sequence is subsequently emitted: the selected help text
is concatenated with the spec-values, and when the combined width overflows the
terminal (with the column indent `spcs`) or the raw help holds a line-break
marker, the marker is replaced by a newline and the text wrapped to the
available columns. The word-wrap primitive is external and passed as `wrap`. -/
def help_processed (wrap : List Nat → Nat → List Nat) (use_long next_line_help
    force_next_line : Bool) (longest term_w : Nat) (a : Arg) (sv : List Nat) : List Nat :=
  let h := help_text use_long a
  let help := h ++ sv
  let nlh := next_line_help || a.nextLineHelp || use_long
  let spcs := if nlh || force_next_line then 12 else longest + 12
  let too_long := term_w ≤ spcs + str_width h + str_width sv
  if (too_long && decide (spcs ≤ term_w)) || contains_lb h then
    wrap (replace_lb help) (term_w - spcs)
  else help

/-! Claim theorems for the layout engine. -/

theorem foldl_max_if_filter (w : Arg → Nat) (p : Arg → Bool) :
    ∀ (l : List Arg) (i : Nat),
      l.foldl (fun acc a => if p a then max acc (w a) else acc) i =
        ((l.filter p).map w).foldl max i := by
  intro l
  induction l with
  | nil => intro i; rfl
  | cons a rest ih =>
    intro i
    by_cases hp : p a
    · simp [List.filter_cons, hp, ih]
    · simp [List.filter_cons, hp, ih]

theorem foldl_max_shift : ∀ (l : List Nat) (a b : Nat),
    l.foldl max (max a b) = max a (l.foldl max b) := by
  intro l
  induction l with
  | nil => intro a b; rfl
  | cons c rest ih =>
    intro a b
    simp only [List.foldl_cons]
    rw [Nat.max_assoc, ih]

/-- C4: the alignment column computed by the measurement pass equals
`max 2 M`, where `M` is the maximum rendered label width over the items that
are both visible and measured; and an argument that is hidden, or that is in
next-line-help mode, never influences the computed column: deleting it from
the collection leaves the column unchanged. -/
theorem c4_alignment_column (use_long : Bool) :
    (∀ args : List Arg,
      write_args_longest use_long args =
        max 2 (((args.filter (fun a => should_show_arg use_long a && longest_filter a)).map
          (fun a => str_width a.label)).foldl max 0)) ∧
    (∀ (l1 l2 : List Arg) (a : Arg), a.hidden = true ∨ a.nextLineHelp = true →
      write_args_longest use_long (l1 ++ a :: l2) = write_args_longest use_long (l1 ++ l2)) := by
  constructor
  · intro args
    rw [write_args_longest, foldl_max_if_filter, List.filter_filter]
    have hcongr : args.filter (fun a => longest_filter a && should_show_arg use_long a) =
        args.filter (fun a => should_show_arg use_long a && longest_filter a) :=
      List.filter_congr (fun a _ => by rw [Bool.and_comm])
    rw [hcongr]
    have h2 : (2 : Nat) = max 2 0 := rfl
    rw [h2, foldl_max_shift]
    simp
  · intro l1 l2 a ha
    rcases ha with hh | hn
    · have hshow : should_show_arg use_long a = false := by
        simp [should_show_arg, hh]
      simp [write_args_longest, List.filter_append, List.filter_cons, hshow]
    · by_cases hh : a.hidden
      · have hshow : should_show_arg use_long a = false := by
          simp [should_show_arg, hh]
        simp [write_args_longest, List.filter_append, List.filter_cons, hshow]
      · have hshow : should_show_arg use_long a = true := by
          simp [should_show_arg, hh, hn]
        have hlf : longest_filter a = false := by simp [longest_filter, hn]
        simp [write_args_longest, List.filter_append, List.filter_cons, hshow,
          List.foldl_append, hlf]

/-- C4 witness: two visible measured items of widths 10 and 7, one hidden item
of width 30 and one next-line-help item of width 40; the column is 10 and
deleting the next-line-help item does not change it. -/
theorem c4_alignment_column_witness :
    write_args_longest false
        [{ label := List.replicate 10 97 }, { label := List.replicate 30 97, hidden := true },
          { label := List.replicate 40 97, nextLineHelp := true },
          { label := List.replicate 7 97 }] =
      max 2 ((([({ label := List.replicate 10 97 } : Arg),
          { label := List.replicate 30 97, hidden := true },
          { label := List.replicate 40 97, nextLineHelp := true },
          { label := List.replicate 7 97 }].filter
            (fun a => should_show_arg false a && longest_filter a)).map
          (fun a => str_width a.label)).foldl max 0) ∧
    write_args_longest false
        ([{ label := List.replicate 10 97 }] ++
          ({ label := List.replicate 40 97, nextLineHelp := true } : Arg) ::
            [{ label := List.replicate 7 97 }]) =
      write_args_longest false
        ([{ label := List.replicate 10 97 }] ++ [{ label := List.replicate 7 97 }]) :=
  ⟨(c4_alignment_column false).1 _,
    (c4_alignment_column false).2 [{ label := List.replicate 10 97 }]
      [{ label := List.replicate 7 97 }] _ (Or.inr rfl)⟩

/-- The argument of the C2 wrap-threshold scenario with help width 60. -/
def arg_help60 : Arg := { help := some (List.replicate 60 104) }

/-- The argument of the C2 wrap-threshold scenario with help width 40. -/
def arg_help40 : Arg := { help := some (List.replicate 40 104) }

/-- C2 counterexample: at terminal width 80 and longest 20 the occupied ratio is
32/80 = 0.40, which is not strictly greater than the 0.40 threshold, so even
with help width 60 the help is NOT forced onto the next line — the claim says
it is. -/
theorem c2_threshold_counterexample :
    val_force_next_line false 80 20 arg_help60 [] = false := by decide

/-- C2 amended: at terminal width 80 and longest 20 (`taken` 32, ratio exactly
0.40) the strict threshold comparison fails, so neither help width 60 nor help
width 40 forces next-line help; shrinking the terminal to width 79 (ratio above
0.40) with help width 60 does force it. -/
theorem c2_threshold_amended :
    val_force_next_line false 80 20 arg_help60 [] = false ∧
      val_force_next_line false 80 20 arg_help40 [] = false ∧
      val_force_next_line false 79 20 arg_help60 [] = true := by
  refine ⟨?_, ?_, ?_⟩ <;> decide

/-- The argument of the C3 spec-values scenario. -/
def arg_c3 : Arg :=
  { env := some (strB "FOO", some (strB "bar"))
    defaultVal := some (strB "baz")
    aliases := some [(strB "f", true), (strB "g", true)]
    possibleVals := some [strB "x", strB "y"] }

/-- C3 counterexample: the synthesized annotation string is not the claimed
single-space-separated string without a leading space. -/
theorem c3_spec_vals_counterexample :
    spec_vals false arg_c3 ≠
      strB "[env: FOO=bar] [default: baz] [aliases: f, g] [possible values: x, y]" := by decide

/-- C3 amended: the four bracketed annotations appear in the fixed order env,
default, aliases, possible values, but each element is synthesized with one
leading space and the elements are then joined with a single space, so the
string starts with a space and consecutive annotations are separated by two
spaces. -/
theorem c3_spec_vals_amended :
    spec_vals false arg_c3 =
      strB " [env: FOO=bar]  [default: baz]  [aliases: f, g]  [possible values: x, y]" := by
  decide

/-- The render context of the C7 counterexample: an about text holding the
two-character line-break marker. -/
def ctx_c7 : TemplateCtx := { about := some (strB "a" ++ lb_seq ++ strB "b") }

/-- C7 counterexample: in template mode the about tag writes the about text
verbatim — the line-break marker survives into the output and no newline
(byte 10) is produced, contradicting the claim for template mode. -/
theorem c7_template_about_counterexample :
    write_templated_help ctx_c7 (123 :: strB "about" ++ [125]) =
        strB "a" ++ lb_seq ++ strB "b" ∧
      10 ∉ write_templated_help ctx_c7 (123 :: strB "about" ++ [125]) := by
  constructor <;> decide

/-- C7 amended: in default auto-layout mode every occurrence of the line-break
marker in help, about, pre-help and post-help text is replaced with a real
newline before the text is wrapped (`write_before_after_help` and the
`Help::help` path); in template mode, however, text injected through the about
tag (likewise before-help/after-help) is written verbatim, without
replacement. -/
theorem c7_line_break_replacement (wrap : List Nat → Nat → List Nat) (term_w : Nat)
    (h : List Nat) (hc : contains_lb h = true) :
    write_before_after_help wrap term_w h = wrap (replace_lb h) term_w ∧
    (∀ (use_long next_line_help force_next_line : Bool) (longest : Nat) (a : Arg)
        (sv : List Nat), contains_lb (help_text use_long a) = true →
      help_processed wrap use_long next_line_help force_next_line longest term_w a sv =
        wrap (replace_lb (help_text use_long a ++ sv))
          (term_w -
            (if (next_line_help || a.nextLineHelp || use_long) || force_next_line then 12
              else longest + 12))) ∧
    (∀ (ctx : TemplateCtx) (s : List Nat), ctx.about = some s →
      write_templated_help ctx (123 :: strB "about" ++ [125]) = s) := by
  refine ⟨?_, ?_, ?_⟩
  · simp [write_before_after_help, hc]
  · intro use_long next_line_help force_next_line longest a sv hc'
    simp [help_processed, hc']
  · intro ctx s habout
    have hd : dispatchTag ctx (strB "about") = s := by
      unfold dispatchTag
      repeat rw [if_neg (by decide)]
      rw [if_pos (by decide)]
      simp [habout]
    have hstep := write_templated_help_tag_step ctx [] (strB "about") [] (by simp)
      (by decide) (by decide)
    rw [write_templated_help_no_brace ctx [] (by simp),
      if_pos (by decide : 0 < (strB "about").length), hd] at hstep
    simp only [List.nil_append, List.append_nil] at hstep
    simpa [List.cons_append] using hstep

/-- C7 witness: the default-mode path replaces the marker before wrapping
(evaluated with the identity in place of the external wrap primitive), and the
template-mode about tag reproduces the marker verbatim. -/
theorem c7_line_break_replacement_witness :
    write_before_after_help (fun l _ => l) 5 lb_seq = replace_lb lb_seq ∧
      write_templated_help ctx_c7 (123 :: strB "about" ++ [125]) =
        strB "a" ++ lb_seq ++ strB "b" := by
  have h := c7_line_break_replacement (fun l _ => l) 5 lb_seq (by decide)
  exact ⟨h.1, h.2.2 ctx_c7 _ rfl⟩

/-- C10: the rendered help text falls back across modes — short-help mode with
no short help renders the long help, long-help mode with no long help renders
the short help, and only when both are absent is the help empty; the same
fallback holds between a subcommand's about and long-about text. -/
theorem c10_help_fallback :
    (∀ (a : Arg) (l : List Nat), a.help = none → a.longHelp = some l →
      help_text false a = l) ∧
    (∀ (a : Arg) (s : List Nat), a.longHelp = none → a.help = some s →
      help_text true a = s) ∧
    (∀ a : Arg, a.help = none → a.longHelp = none →
      help_text false a = [] ∧ help_text true a = []) ∧
    (∀ (app : AppModel) (l : List Nat), app.about = none → app.longAbout = some l →
      sc_help_text false app = l) ∧
    (∀ (app : AppModel) (s : List Nat), app.longAbout = none → app.about = some s →
      sc_help_text true app = s) ∧
    (∀ app : AppModel, app.about = none → app.longAbout = none →
      sc_help_text false app = [] ∧ sc_help_text true app = []) := by
  refine ⟨?_, ?_, ?_, ?_, ?_, ?_⟩ <;> intros <;> simp_all [help_text, sc_help_text]

/-- C10 witness: the four fallbacks evaluated on concrete descriptors. -/
theorem c10_help_fallback_witness :
    help_text false { longHelp := some (strB "L") } = strB "L" ∧
      help_text true { help := some (strB "S") } = strB "S" ∧
      sc_help_text false { longAbout := some (strB "LA") } = strB "LA" ∧
      sc_help_text true { about := some (strB "A") } = strB "A" :=
  ⟨c10_help_fallback.1 _ _ rfl rfl, c10_help_fallback.2.1 _ _ rfl rfl,
    c10_help_fallback.2.2.2.1 _ _ rfl rfl, c10_help_fallback.2.2.2.2.1 _ _ rfl rfl⟩

/-! StyleSet: `clap_builder/src/builder/styling.rs`. -/

/-- Embeds `Styles` (styling.rs lines 23-41); the `anstyle::Style` payload is
irrelevant to the fallback structure, so it is a type parameter. The seven fixed
slots are always present; the contextual styles are optional overrides. -/
structure Styles (α : Type) where
  header : α
  error : α
  usage : α
  literal : α
  placeholder : α
  valid : α
  invalid : α
  context : α
  context_data : Option α := none
  context_aliases : Option α := none
  context_aliases_data : Option α := none
  context_default : Option α := none
  context_default_data : Option α := none
  context_env : Option α := none
  context_env_data : Option α := none
  context_possible_values : Option α := none
  context_possible_values_data : Option α := none
deriving Repr, DecidableEq

/-- Embeds `Styles::get_context_data` (styling.rs lines 300-306). -/
def Styles.get_context_data {α : Type} (s : Styles α) : α :=
  match s.context_data with
  | some x => x
  | none => s.context

/-- Embeds `Styles::get_context_aliases` (styling.rs lines 309-315). -/
def Styles.get_context_aliases {α : Type} (s : Styles α) : α :=
  match s.context_aliases with
  | some x => x
  | none => s.context

/-- Embeds `Styles::get_context_aliases_data` (styling.rs lines 322-331). -/
def Styles.get_context_aliases_data {α : Type} (s : Styles α) : α :=
  match s.context_aliases_data with
  | some x => x
  | none =>
    match s.context_aliases with
    | some b => b
    | none => s.get_context_data

/-- Embeds `Styles::get_context_default` (styling.rs lines 334-340). -/
def Styles.get_context_default {α : Type} (s : Styles α) : α :=
  match s.context_default with
  | some x => x
  | none => s.context

/-- Embeds `Styles::get_context_default_data` (styling.rs lines 347-356). -/
def Styles.get_context_default_data {α : Type} (s : Styles α) : α :=
  match s.context_default_data with
  | some x => x
  | none =>
    match s.context_default with
    | some b => b
    | none => s.get_context_data

/-- Embeds `Styles::get_context_env` (styling.rs lines 359-365). -/
def Styles.get_context_env {α : Type} (s : Styles α) : α :=
  match s.context_env with
  | some x => x
  | none => s.context

/-- Embeds `Styles::get_context_env_data` (styling.rs lines 372-381). -/
def Styles.get_context_env_data {α : Type} (s : Styles α) : α :=
  match s.context_env_data with
  | some x => x
  | none =>
    match s.context_env with
    | some b => b
    | none => s.get_context_data

/-- Embeds `Styles::get_context_possible_values` (styling.rs lines 384-390). -/
def Styles.get_context_possible_values {α : Type} (s : Styles α) : α :=
  match s.context_possible_values with
  | some x => x
  | none => s.context

/-- Embeds `Styles::get_context_possible_values_data` (styling.rs lines 397-406). -/
def Styles.get_context_possible_values_data {α : Type} (s : Styles α) : α :=
  match s.context_possible_values_data with
  | some x => x
  | none =>
    match s.context_possible_values with
    | some b => b
    | none => s.get_context_data

/-- The four context kinds the spec names. -/
inductive ContextKind where
  | aliases
  | defaultValue
  | env
  | possibleValues
deriving Repr, DecidableEq

/-- The per-kind context-value getter of the source. -/
def resolve_context_value {α : Type} (s : Styles α) : ContextKind → α
  | .aliases => s.get_context_aliases_data
  | .defaultValue => s.get_context_default_data
  | .env => s.get_context_env_data
  | .possibleValues => s.get_context_possible_values_data

/-- The specific context-value override field of a kind. -/
def specific_value_override {α : Type} (s : Styles α) : ContextKind → Option α
  | .aliases => s.context_aliases_data
  | .defaultValue => s.context_default_data
  | .env => s.context_env_data
  | .possibleValues => s.context_possible_values_data

/-- The specific context override field of a kind. -/
def specific_override {α : Type} (s : Styles α) : ContextKind → Option α
  | .aliases => s.context_aliases
  | .defaultValue => s.context_default
  | .env => s.context_env
  | .possibleValues => s.context_possible_values

/-- Modelled from the spec's words: the fixed four-level fallback chain —
the specific context's value override if set, else the specific context's
override if set, else the generic context-value override if set, else the
generic context style. A plain nest of matches: trivially terminating and
acyclic. -/
def chain_resolve {α : Type} (s : Styles α) (k : ContextKind) : α :=
  match specific_value_override s k with
  | some x => x
  | none =>
    match specific_override s k with
    | some x => x
    | none =>
      match s.context_data with
      | some x => x
      | none => s.context

/-- C8: for every style configuration and every context kind, the source's
context-value resolution equals the spec's fixed four-level fallback chain;
being a total function on a finite nest of option matches, it terminates and
is never cyclic. -/
theorem c8_context_value_chain {α : Type} (s : Styles α) (k : ContextKind) :
    resolve_context_value s k = chain_resolve s k := by
  cases k <;>
    simp only [resolve_context_value, chain_resolve, specific_value_override,
      specific_override, Styles.get_context_aliases_data, Styles.get_context_default_data,
      Styles.get_context_env_data, Styles.get_context_possible_values_data,
      Styles.get_context_data]

end Clap
